import Mathlib

/-!
Verification of the release-freshness checker in `src/core/updater.py`
(`GitHubReleaseChecker` and its collaborators).  The Python code is shallowly
embedded: pure functions become Lean functions on `String`/`List Char`,
network behaviour is an oracle assigning an outcome to each attempt, and
raised exceptions become `Except` values.
-/

namespace Updater

/-- Embedding of the `UpdateStatus` enumeration. -/
inductive UpdateStatus where
  | UP_TO_DATE
  | OUTDATED
  | AHEAD
  | ERROR
  | FETCH_FAILED
  | INVALID_VERSION
deriving DecidableEq, Repr

/-- The `.value` string of each `UpdateStatus` member. -/
def UpdateStatus.value : UpdateStatus → String
  | .UP_TO_DATE => "up_to_date"
  | .OUTDATED => "outdated"
  | .AHEAD => "ahead"
  | .ERROR => "error"
  | .FETCH_FAILED => "fetch_failed"
  | .INVALID_VERSION => "invalid_version"

/-- Embedding of the `ReleaseInfo` dataclass. -/
structure ReleaseInfo where
  tag_name : String
  name : String
  html_url : String
  published_at : String
  body : String
deriving DecidableEq, Repr

/-- `ReleaseInfo.truncated_body`: the body capped at 500 characters with an
ellipsis appended when it is longer. -/
def ReleaseInfo.truncated_body (r : ReleaseInfo) : String :=
  if r.body.length > 500 then r.body.take 500 ++ ("...") else r.body

/-- Embedding of the `VersionComparison` dataclass. -/
structure VersionComparison where
  status : UpdateStatus
  message : String
  current_version : String
  latest_version : String
  current_normalized : String
  latest_normalized : String
  release_info : Option ReleaseInfo := none
deriving DecidableEq, Repr

/-- `VersionComparison.to_dict`, as an ordered association list: the six base
entries always, the four release entries appended exactly when
`release_info` is set (a dataclass instance is always truthy in Python, so
`if self.release_info` tests presence). -/
def VersionComparison.to_dict (v : VersionComparison) : List (String × String) :=
  [("status", v.status.value),
   ("message", v.message),
   ("current_version", v.current_version),
   ("latest_version", v.latest_version),
   ("current_normalized", v.current_normalized),
   ("latest_normalized", v.latest_normalized)]
  ++ match v.release_info with
     | some r =>
       [("release_name", r.name),
        ("release_url", r.html_url),
        ("release_date", r.published_at),
        ("release_notes", r.truncated_body)]
     | none => []

/-- Embedding of the `GitHubAPIError` exception: carries its message. -/
structure GitHubAPIError where
  msg : String
deriving DecidableEq, Repr

/-- Decidable equality on `Except`, needed to evaluate results by `decide`. -/
instance exceptDecEq {ε α : Type} [DecidableEq ε] [DecidableEq α] :
    DecidableEq (Except ε α) := fun a b =>
  match a, b with
  | Except.ok x, Except.ok y =>
    if h : x = y then Decidable.isTrue (by rw [h])
    else Decidable.isFalse (by intro hh; cases hh; exact h rfl)
  | Except.ok _, Except.error _ => Decidable.isFalse (by intro hh; cases hh)
  | Except.error _, Except.ok _ => Decidable.isFalse (by intro hh; cases hh)
  | Except.error x, Except.error y =>
    if h : x = y then Decidable.isTrue (by rw [h])
    else Decidable.isFalse (by intro hh; cases hh; exact h rfl)

/-- Python `str.strip()` on a character list (ASCII whitespace). -/
def pyStrip (l : List Char) : List Char :=
  ((l.dropWhile Char.isWhitespace).reverse.dropWhile Char.isWhitespace).reverse

/-- A separator in the sense of the regex class `[\s\-_]`. -/
def isSep (c : Char) : Bool :=
  c.isWhitespace || c == '-' || c == '_'

/-- Case-insensitive match of a literal pattern against a prefix of the
input; the pattern is given as (lowercase, uppercase) character pairs,
modelling `re.IGNORECASE` on ASCII letters. -/
def matchLabel : List (Char × Char) → List Char → Bool
  | [], _ => true
  | _ :: _, [] => false
  | (lo, up) :: ps, c :: cs => (c == lo || c == up) && matchLabel ps cs

/-- Model of `re.sub(r"^(v|version|release|tag)[\s\-_]*", "", s, re.IGNORECASE)`.
Python alternation is leftmost-first, so the branch `v` is tried before
`version`; since `[\s\-_]*` may match the empty string, any input starting
with `v`/`V` already succeeds on the first branch, and the `version`
alternative can never be the one that matches (kept here in source order). -/
def removeLabel (l : List Char) : List Char :=
  if matchLabel [('v', 'V')] l then
    (l.drop 1).dropWhile isSep
  else if matchLabel [('v', 'V'), ('e', 'E'), ('r', 'R'), ('s', 'S'), ('i', 'I'),
      ('o', 'O'), ('n', 'N')] l then
    (l.drop 7).dropWhile isSep
  else if matchLabel [('r', 'R'), ('e', 'E'), ('l', 'L'), ('e', 'E'), ('a', 'A'),
      ('s', 'S'), ('e', 'E')] l then
    (l.drop 7).dropWhile isSep
  else if matchLabel [('t', 'T'), ('a', 'A'), ('g', 'G')] l then
    (l.drop 3).dropWhile isSep
  else l

/-- Embedding of `GitHubReleaseChecker._normalize_version`: empty input falls
back to `"0.0.0"`; otherwise strip whitespace, remove a leading label with
its separators, then strip remaining leading non-digit characters, falling
back to `"0.0.0"` when nothing remains. -/
def _normalize_version (version_str : String) : String :=
  if version_str = "" then ("0.0.0")
  else
    let normalized := removeLabel (pyStrip version_str.toList)
    let cleaned := normalized.dropWhile (fun c => !c.isDigit)
    if cleaned = [] then ("0.0.0") else String.mk cleaned

/-- Split a character list on the dot character. -/
def splitDots : List Char → List (List Char)
  | [] => [[]]
  | c :: rest =>
    if c = '.' then [] :: splitDots rest
    else
      match splitDots rest with
      | [] => [[c]]
      | p :: ps => (c :: p) :: ps

/-- Numeric value of a digit string. -/
def digitsVal (l : List Char) : Nat :=
  l.foldl (fun n c => 10 * n + (c.toNat - 48)) 0

/-- Model of `packaging.version.parse`, restricted to plain release versions:
a non-empty dot-separated sequence of decimal numerals parses to its list of
numeric components; every other string is rejected with the packaging
`InvalidVersion` message (`Invalid version:` followed by the quoted input).  Pre-release, post,
dev, epoch and local segments are outside the modelled subset: every string
this model accepts is accepted by `packaging` with the same release
ordering. -/
def parseRelease (s : String) : Except String (List Nat) :=
  let parts := splitDots s.toList
  if parts.all (fun p => p ≠ [] ∧ p.all Char.isDigit) then
    Except.ok (parts.map digitsVal)
  else
    Except.error ("Invalid version: \x27" ++ s ++ "\x27")

/-- Whether every component of a release segment is zero. -/
def allZero (l : List Nat) : Bool :=
  l.all (fun x => x == 0)

/-- PEP 440 release-segment comparison: componentwise, with the shorter
sequence padded with zeros (an exhausted side compares as zeros against the
remainder of the other). -/
def relCmp : List Nat → List Nat → Ordering
  | [], b => if allZero b then Ordering.eq else Ordering.lt
  | a, [] => if allZero a then Ordering.eq else Ordering.gt
  | x :: xs, y :: ys =>
    if x < y then Ordering.lt
    else if y < x then Ordering.gt
    else relCmp xs ys

/-- Pad a release segment with zeros up to length `n`. -/
def padArr (a : List Nat) (n : Nat) : List Nat :=
  a ++ List.replicate (n - a.length) 0

/-- Specification-level strict order on release segments: lexicographic
order after padding both sides to a common length. -/
def verLt (a b : List Nat) : Prop :=
  padArr a b.length < padArr b a.length

/-- Specification-level equality on release segments: equality after padding
both sides to a common length. -/
def verEq (a b : List Nat) : Prop :=
  padArr a b.length = padArr b a.length

/-- Embedding of `GitHubReleaseChecker.compare_versions`.  Python evaluates
`version.parse(current_norm)` first, so when both sides are invalid the
recorded error is that of the current side.  The final defensive
`except Exception` branch of the Python code has no counterpart here: no
modelled operation in the `try` block can fail other than `version.parse`. -/
def compare_versions (current_version : String) (release_info : ReleaseInfo) :
    VersionComparison :=
  let current_norm := _normalize_version current_version
  let latest_norm := _normalize_version release_info.tag_name
  match parseRelease current_norm with
  | Except.error e =>
    { status := UpdateStatus.INVALID_VERSION,
      message := "❌ Invalid version format: " ++ e,
      current_version := current_version,
      latest_version := release_info.tag_name,
      current_normalized := "",
      latest_normalized := "",
      release_info := some release_info }
  | Except.ok current_ver =>
    match parseRelease latest_norm with
    | Except.error e =>
      { status := UpdateStatus.INVALID_VERSION,
        message := "❌ Invalid version format: " ++ e,
        current_version := current_version,
        latest_version := release_info.tag_name,
        current_normalized := "",
        latest_normalized := "",
        release_info := some release_info }
    | Except.ok latest_ver =>
      match relCmp current_ver latest_ver with
      | Ordering.lt =>
        { status := UpdateStatus.OUTDATED,
          message := "🔴 Oh no! The bot\x27s living in the past. Current: v"
            ++ current_version ++ ", Latest: " ++ release_info.tag_name,
          current_version := current_version,
          latest_version := release_info.tag_name,
          current_normalized := current_norm,
          latest_normalized := latest_norm,
          release_info := some release_info }
      | Ordering.gt =>
        { status := UpdateStatus.AHEAD,
          message := "🟣 Time traveler detected! The bot\x27s from the future. Current: v"
            ++ current_version ++ ", Latest: " ++ release_info.tag_name,
          current_version := current_version,
          latest_version := release_info.tag_name,
          current_normalized := current_norm,
          latest_normalized := latest_norm,
          release_info := some release_info }
      | Ordering.eq =>
        { status := UpdateStatus.UP_TO_DATE,
          message := "🟢 All systems go! The bot is as fresh as it gets. Version: v"
            ++ current_version,
          current_version := current_version,
          latest_version := release_info.tag_name,
          current_normalized := current_norm,
          latest_normalized := latest_norm,
          release_info := some release_info }

/-- The remainder allowed after the lazily-matched repository group in the
pattern `github\.com[:/]([^/]+)/([^/]+?)(?:\.git)?/?$`: what `(?:\.git)?/?$`
can consume. -/
def tailOk (rem : List Char) : Bool :=
  rem == [] || rem == ['/'] || rem == ['.', 'g', 'i', 't'] ||
    rem == ['.', 'g', 'i', 't', '/']

/-- The lazy group `([^/]+?)` followed by `(?:\.git)?/?$`: the shortest
non-empty slash-free prefix whose remainder is accepted by `tailOk`.  The
accumulator holds the characters committed to the group so far. -/
def repoGo (acc : List Char) : List Char → Option String
  | [] => none
  | c :: rest =>
    if c = '/' then none
    else if tailOk rest then some (String.mk (acc ++ [c]))
    else repoGo (acc ++ [c]) rest

/-- Attempt to match `github\.com[:/]([^/]+)/([^/]+?)(?:\.git)?/?$` starting
at the head of the input, returning the owner and repository groups.  The
greedy `([^/]+)` owner group cannot usefully backtrack: shrinking it leaves
a non-slash character where `/` is required. -/
def matchFullAt (l : List Char) : Option (String × String) :=
  if l.take 10 = ['g', 'i', 't', 'h', 'u', 'b', '.', 'c', 'o', 'm'] then
    match l.drop 10 with
    | [] => none
    | c :: rest =>
      if c = ':' ∨ c = '/' then
        let owner := rest.takeWhile (fun d => d ≠ '/')
        if owner ≠ [] then
          match rest.dropWhile (fun d => d ≠ '/') with
          | '/' :: t => (repoGo [] t).map (fun repo => (String.mk owner, repo))
          | _ => none
        else none
      else none
  else none

/-- `re.search` of the full-URL pattern: the match may start at any
position; positions are tried left to right. -/
def searchFull : List Char → Option (String × String)
  | [] => matchFullAt []
  | c :: rest =>
    match matchFullAt (c :: rest) with
    | some r => some r
    | none => searchFull rest

/-- `re.search` of the anchored short-form pattern `^([^/]+)/([^/]+)$`: a
single slash with non-empty slash-free segments on both sides. -/
def matchShort (l : List Char) : Option (String × String) :=
  let owner := l.takeWhile (fun d => d ≠ '/')
  match l.dropWhile (fun d => d ≠ '/') with
  | '/' :: t =>
    if owner ≠ [] ∧ t ≠ [] ∧ t.all (fun d => d ≠ '/') then
      some (String.mk owner, String.mk t)
    else none
  | _ => none

/-- Embedding of `GitHubReleaseChecker._convert_to_api_url`: the two
patterns are tried in source order, first match wins; an input matching
neither raises `GitHubAPIError`. -/
def _convert_to_api_url (repo_url : String) : Except GitHubAPIError String :=
  match searchFull repo_url.toList with
  | some (owner, repo) =>
    Except.ok ("https://api.github.com/repos/" ++ owner ++ "/" ++ repo
      ++ "/releases/latest")
  | none =>
    match matchShort repo_url.toList with
    | some (owner, repo) =>
      Except.ok ("https://api.github.com/repos/" ++ owner ++ "/" ++ repo
        ++ "/releases/latest")
    | none => Except.error ⟨"Invalid GitHub URL format: " ++ repo_url⟩

/-- Python `str.rstrip("/")`. -/
def pyRstripSlash (s : String) : String :=
  String.mk (s.toList.reverse.dropWhile (fun c => c = '/')).reverse

/-- The state built by `GitHubReleaseChecker.__init__`. -/
structure CheckerState where
  repo_url : String
  api_url : String
  timeoutS : Nat
  max_retries : Nat
deriving DecidableEq, Repr

/-- Embedding of `GitHubReleaseChecker.__init__` for a configured
`BotData.REPO_URL` value: strips trailing slashes, then resolves the API
URL; a resolution failure propagates out of the constructor. -/
def initChecker (repoUrlCfg : String) (timeoutS max_retries : Nat) :
    Except GitHubAPIError CheckerState :=
  let ru := pyRstripSlash repoUrlCfg
  match _convert_to_api_url ru with
  | Except.ok api => Except.ok ⟨ru, api, timeoutS, max_retries⟩
  | Except.error e => Except.error e

/-- A JSON release payload: each API field may be absent.  A `200` body
that is falsy in Python (`null`, `{}`, …) is modelled separately by
`Option ReleaseJson` at the use sites. -/
structure ReleaseJson where
  tag_name : Option String
  name : Option String
  html_url : Option String
  published_at : Option String
  body : Option String
deriving DecidableEq, Repr

/-- Outcome of one HTTP attempt, as seen by the `try` block of
`_fetch_with_retry`: a response with a status code (the JSON body is `none`
when falsy), a timeout, an `aiohttp.ClientError`, or any other exception. -/
inductive AttemptOutcome where
  | response (status : Nat) (reason : String) (jsonData : Option ReleaseJson)
  | timeout
  | clientError (msg : String)
  | unexpectedError (msg : String)
deriving DecidableEq, Repr

/-- One iteration of the `try`/`except` body of `_fetch_with_retry`:
`Except.ok d` models the attempt executing `return data`; `Except.error e`
models an exception caught by a handler, with `e` the `GitHubAPIError`
stored into `last_exception`.  A non-200 status raises a `GitHubAPIError`
inside the `try` block, and that exception — being neither a
`TimeoutError` nor an `aiohttp.ClientError` — is caught by the generic
`except Exception` handler of the same block, which wraps its text as
`Unexpected error: …` and lets the loop continue. -/
def attemptStep (timeoutS : Nat) : AttemptOutcome →
    Except GitHubAPIError (Option ReleaseJson)
  | AttemptOutcome.response status reason data =>
    if status = 200 then Except.ok data
    else
      let raised : GitHubAPIError :=
        if status = 404 then
          ⟨"Repository not found or no releases available (HTTP 404)"⟩
        else if status = 403 then ⟨"API rate limit exceeded (HTTP 403)"⟩
        else ⟨"HTTP " ++ toString status ++ ": " ++ reason⟩
      Except.error ⟨"Unexpected error: " ++ raised.msg⟩
  | AttemptOutcome.timeout =>
    Except.error ⟨"Request timeout after " ++ toString timeoutS ++ "s"⟩
  | AttemptOutcome.clientError m => Except.error ⟨"Network error: " ++ m⟩
  | AttemptOutcome.unexpectedError m => Except.error ⟨"Unexpected error: " ++ m⟩

/-- Result of a whole `_fetch_with_retry` call: how many attempts ran, the
backoff sleeps performed (in seconds, in order), and the returned data or
raised error. -/
structure FetchResult where
  attempts : Nat
  sleeps : List Nat
  outcome : Except GitHubAPIError (Option ReleaseJson)
deriving DecidableEq, Repr

/-- The retry loop of `_fetch_with_retry`.  `fuel` counts the remaining
iterations of `for attempt in range(max_retries)` (initially `maxR`, with
the invariant `attempt + fuel = maxR`); `lastExc` is the `last_exception`
accumulator and `sleeps` the backoff sleeps performed so far.  On
exhaustion the last captured error is raised, or the generic
`All retry attempts failed` error when none was captured. -/
def fetchGo (t maxR : Nat) (outcomes : Nat → AttemptOutcome) :
    Nat → Nat → Option GitHubAPIError → List Nat → FetchResult
  | 0, attempt, lastExc, sleeps =>
    ⟨attempt, sleeps,
     Except.error (match lastExc with
       | some e => e
       | none => ⟨"All retry attempts failed"⟩)⟩
  | fuel + 1, attempt, _lastExc, sleeps =>
    match attemptStep t (outcomes attempt) with
    | Except.ok d => ⟨attempt + 1, sleeps, Except.ok d⟩
    | Except.error e =>
      fetchGo t maxR outcomes fuel (attempt + 1) (some e)
        (if attempt < maxR - 1 then sleeps ++ [2 ^ attempt] else sleeps)

/-- Embedding of `GitHubReleaseChecker._fetch_with_retry`, with the
behaviour of the network given by the `outcomes` oracle (outcome of each
zero-indexed attempt). -/
def _fetch_with_retry (t maxR : Nat) (outcomes : Nat → AttemptOutcome) :
    FetchResult :=
  fetchGo t maxR outcomes maxR 0 none []

/-- Embedding of `GitHubReleaseChecker.get_latest_release`, applied to the
outcome of `_fetch_with_retry`: a falsy payload yields `none`
(`if not data: return None`); otherwise a `ReleaseInfo` is built with the
documented field defaults; a raised `GitHubAPIError` is re-raised
unchanged. -/
def get_latest_release (fetched : Except GitHubAPIError (Option ReleaseJson)) :
    Except GitHubAPIError (Option ReleaseInfo) :=
  match fetched with
  | Except.error e => Except.error e
  | Except.ok none => Except.ok none
  | Except.ok (some d) =>
    Except.ok (some
      { tag_name := d.tag_name.getD "unknown",
        name := d.name.getD "",
        html_url := d.html_url.getD "",
        published_at := d.published_at.getD "",
        body := d.body.getD "" })

/-- The configured `BotData.VERSION`. -/
def botDataVersion : String := "0.9"

/-- Embedding of `GitHubReleaseChecker.check_for_updates` on a constructed
checker, with the network behaviour summarised by `fetched`: a missing
release yields `FETCH_FAILED`, a raised `GitHubAPIError` yields `ERROR`
(both with `latest_version = "unknown"` and no release info), and
otherwise the comparison result is returned as is. -/
def check_for_updates (currentVersion : String)
    (fetched : Except GitHubAPIError (Option ReleaseJson)) : VersionComparison :=
  match get_latest_release fetched with
  | Except.ok (some info) => compare_versions currentVersion info
  | Except.ok none =>
    { status := UpdateStatus.FETCH_FAILED,
      message := "❌ Failed to fetch release information from GitHub",
      current_version := currentVersion,
      latest_version := "unknown",
      current_normalized := "",
      latest_normalized := "",
      release_info := none }
  | Except.error e =>
    { status := UpdateStatus.ERROR,
      message := "❌ GitHub API error: " ++ e.msg,
      current_version := currentVersion,
      latest_version := "unknown",
      current_normalized := "",
      latest_normalized := "",
      release_info := none }

/-- The whole update check as a caller experiences it:
`GitHubReleaseChecker()` followed by `check_for_updates()`.  The
constructor resolves the API URL, so a resolution failure propagates as a
raised `GitHubAPIError` before any fetch or comparison happens. -/
def runUpdateCheck (repoUrlCfg currentVersion : String)
    (outcomes : Nat → AttemptOutcome) : Except GitHubAPIError VersionComparison :=
  match initChecker repoUrlCfg 10 3 with
  | Except.error e => Except.error e
  | Except.ok st =>
    Except.ok (check_for_updates currentVersion
      (_fetch_with_retry st.timeoutS st.max_retries outcomes).outcome)

/-- Label removal following the words of the specification: a single leading
label from the set {"v", "version", "release", "tag"}, read with a
longest-label-first preference so that `"Version 2.0"` sheds the whole word
`Version`.  (The regex in the code, with its leftmost-first alternation, instead
sheds only the `V`; the two agree after the subsequent non-digit strip.) -/
def specRemoveLabel (l : List Char) : List Char :=
  if matchLabel [('v', 'V'), ('e', 'E'), ('r', 'R'), ('s', 'S'), ('i', 'I'),
      ('o', 'O'), ('n', 'N')] l then
    (l.drop 7).dropWhile isSep
  else if matchLabel [('r', 'R'), ('e', 'E'), ('l', 'L'), ('e', 'E'), ('a', 'A'),
      ('s', 'S'), ('e', 'E')] l then
    (l.drop 7).dropWhile isSep
  else if matchLabel [('t', 'T'), ('a', 'A'), ('g', 'G')] l then
    (l.drop 3).dropWhile isSep
  else if matchLabel [('v', 'V')] l then
    (l.drop 1).dropWhile isSep
  else l

/-- The normalizer as the specification describes it: trim whitespace,
remove one leading label with optional separators, strip remaining leading
non-digit characters, and fall back to `"0.0.0"` when nothing remains. -/
def normalizeSpec (s : String) : String :=
  if s = "" then ("0.0.0")
  else
    let cleaned :=
      (specRemoveLabel (pyStrip s.toList)).dropWhile (fun c => !c.isDigit)
    if cleaned = [] then ("0.0.0") else String.mk cleaned

theorem dropWhile_nondigit_append (p r : List Char)
    (h : ∀ c ∈ p, c.isDigit = false) :
    (p ++ r).dropWhile (fun c => !c.isDigit) =
      r.dropWhile (fun c => !c.isDigit) := by
  induction p with
  | nil => rfl
  | cons c p ih =>
    have hc : c.isDigit = false := h c (List.mem_cons_self c p)
    rw [List.cons_append, List.dropWhile_cons]
    simp only [hc]
    exact ih (fun d hd => h d (List.mem_cons_of_mem c hd))

theorem isSep_not_digit (c : Char) (h : isSep c = true) : c.isDigit = false := by
  unfold isSep Char.isWhitespace at h
  simp only [Bool.or_eq_true, decide_eq_true_eq, beq_iff_eq] at h
  have h2 : c = ' ' ∨ c = '\t' ∨ c = '\x0d' ∨ c = '\n' ∨ c = '-' ∨ c = '_' := by
    tauto
  rcases h2 with h2 | h2 | h2 | h2 | h2 | h2 <;> subst h2 <;> decide

theorem dropWhile_isSep_nondigit (l : List Char) :
    (l.dropWhile isSep).dropWhile (fun c => !c.isDigit) =
      l.dropWhile (fun c => !c.isDigit) := by
  induction l with
  | nil => rfl
  | cons c l ih =>
    by_cases hc : isSep c = true
    · have h1 : List.dropWhile isSep (c :: l) = List.dropWhile isSep l := by
        rw [List.dropWhile_cons, hc]
        simp
      have h2 : List.dropWhile (fun d => !d.isDigit) (c :: l) =
          List.dropWhile (fun d => !d.isDigit) l := by
        rw [List.dropWhile_cons]
        simp [isSep_not_digit c hc]
      rw [h1, h2]
      exact ih
    · have hc2 : isSep c = false := by
        revert hc
        cases isSep c <;> simp
      have h1 : List.dropWhile isSep (c :: l) = c :: l := by
        rw [List.dropWhile_cons, hc2]
        simp
      rw [h1]

theorem matchLabel_nondigit (ps : List (Char × Char)) (l : List Char)
    (hm : matchLabel ps l = true)
    (hp : ∀ p ∈ ps, p.1.isDigit = false ∧ p.2.isDigit = false) :
    ∀ c ∈ l.take ps.length, c.isDigit = false := by
  induction ps generalizing l with
  | nil => intro c hc; simp at hc
  | cons p ps ih =>
    cases l with
    | nil => intro c hc; simp at hc
    | cons c cs =>
      obtain ⟨lo, up⟩ := p
      unfold matchLabel at hm
      rcases Bool.and_eq_true_iff.mp hm with ⟨h1, h2⟩
      intro d hd
      rw [List.length_cons, List.take_succ_cons] at hd
      rcases List.mem_cons.mp hd with hd1 | hd2
      · subst hd1
        rcases Bool.or_eq_true_iff.mp h1 with he | he
        · rw [eq_of_beq he]
          exact (hp (lo, up) (List.mem_cons_self _ _)).1
        · rw [eq_of_beq he]
          exact (hp (lo, up) (List.mem_cons_self _ _)).2
      · exact ih cs h2 (fun q hq => hp q (List.mem_cons_of_mem _ hq)) d hd2

theorem labelChunk_dropWhile (l : List Char) (n : Nat)
    (h : ∀ c ∈ l.take n, c.isDigit = false) :
    (((l.drop n).dropWhile isSep).dropWhile (fun c => !c.isDigit)) =
      l.dropWhile (fun c => !c.isDigit) := by
  rw [dropWhile_isSep_nondigit]
  conv_rhs => rw [← List.take_append_drop n l]
  rw [dropWhile_nondigit_append _ _ h]

theorem removeLabel_dropWhile (l : List Char) :
    (removeLabel l).dropWhile (fun c => !c.isDigit) =
      l.dropWhile (fun c => !c.isDigit) := by
  unfold removeLabel
  split
  next h => exact labelChunk_dropWhile l 1 (matchLabel_nondigit _ l h (by decide))
  next _ =>
  split
  next h => exact labelChunk_dropWhile l 7 (matchLabel_nondigit _ l h (by decide))
  next _ =>
  split
  next h => exact labelChunk_dropWhile l 7 (matchLabel_nondigit _ l h (by decide))
  next _ =>
  split
  next h => exact labelChunk_dropWhile l 3 (matchLabel_nondigit _ l h (by decide))
  next _ => rfl

theorem specRemoveLabel_dropWhile (l : List Char) :
    (specRemoveLabel l).dropWhile (fun c => !c.isDigit) =
      l.dropWhile (fun c => !c.isDigit) := by
  unfold specRemoveLabel
  split
  next h => exact labelChunk_dropWhile l 7 (matchLabel_nondigit _ l h (by decide))
  next _ =>
  split
  next h => exact labelChunk_dropWhile l 7 (matchLabel_nondigit _ l h (by decide))
  next _ =>
  split
  next h => exact labelChunk_dropWhile l 3 (matchLabel_nondigit _ l h (by decide))
  next _ =>
  split
  next h => exact labelChunk_dropWhile l 1 (matchLabel_nondigit _ l h (by decide))
  next _ => rfl

theorem normalize_agrees (s : String) : _normalize_version s = normalizeSpec s := by
  unfold _normalize_version normalizeSpec
  by_cases h : s = ""
  · simp [h]
  · simp only [h, if_false]
    rw [removeLabel_dropWhile, specRemoveLabel_dropWhile]

theorem padArr_nil_left (n : Nat) : padArr [] n = List.replicate n 0 := by
  simp [padArr]

theorem padArr_zero (a : List Nat) : padArr a 0 = a := by
  simp [padArr]

theorem padArr_cons (x : Nat) (xs : List Nat) (n : Nat) :
    padArr (x :: xs) (n + 1) = x :: padArr xs n := by
  simp [padArr, Nat.succ_sub_succ]

theorem nat_list_not_lt_nil (l : List Nat) : ¬ l < ([] : List Nat) := by
  intro h
  cases h

theorem nat_cons_lt_cons_iff (x y : Nat) (l₁ l₂ : List Nat) :
    (x :: l₁) < (y :: l₂) ↔ x < y ∨ (x = y ∧ l₁ < l₂) := by
  constructor
  · intro h
    cases h with
    | cons h => exact Or.inr ⟨rfl, h⟩
    | rel h => exact Or.inl h
  · intro h
    rcases h with h | ⟨he, hl⟩
    · exact List.Lex.rel h
    · subst he
      exact List.Lex.cons hl

theorem eq_replicate_iff_allZero (a : List Nat) :
    a = List.replicate a.length 0 ↔ allZero a = true := by
  induction a with
  | nil => simp [allZero]
  | cons x xs ih =>
    simp only [List.length_cons, List.replicate_succ, List.cons.injEq, allZero,
      List.all_cons, Bool.and_eq_true, beq_iff_eq]
    unfold allZero at ih
    rw [ih]

theorem not_lt_replicate (a : List Nat) : ¬ a < List.replicate a.length 0 := by
  induction a with
  | nil => exact nat_list_not_lt_nil []
  | cons x xs ih =>
    simp only [List.length_cons, List.replicate_succ]
    rw [nat_cons_lt_cons_iff]
    intro h
    rcases h with h | ⟨_, h⟩
    · omega
    · exact ih h

theorem replicate_lt_iff (b : List Nat) :
    List.replicate b.length 0 < b ↔ allZero b = false := by
  induction b with
  | nil =>
    simp only [List.length_nil, List.replicate_zero, allZero, List.all_nil]
    constructor
    · intro h
      exact absurd h (nat_list_not_lt_nil [])
    · intro h
      cases h
  | cons y ys ih =>
    simp only [List.length_cons, List.replicate_succ]
    rw [nat_cons_lt_cons_iff]
    unfold allZero
    simp only [List.all_cons, Bool.and_eq_false_iff, beq_eq_false_iff_ne, ne_eq]
    unfold allZero at ih
    constructor
    · intro h
      rcases h with h | ⟨_, h⟩
      · exact Or.inl (by omega)
      · exact Or.inr (ih.mp h)
    · intro h
      rcases h with h | h
      · exact Or.inl (by omega)
      · by_cases hy : y = 0
        · exact Or.inr ⟨hy.symm, ih.mpr h⟩
        · exact Or.inl (by omega)

theorem relCmp_spec (a : List Nat) : ∀ b : List Nat,
    (relCmp a b = Ordering.eq ↔ verEq a b) ∧
    (relCmp a b = Ordering.lt ↔ verLt a b) ∧
    (relCmp a b = Ordering.gt ↔ verLt b a) := by
  induction a with
  | nil =>
    intro b
    have hr : relCmp [] b = if allZero b then Ordering.eq else Ordering.lt := by
      cases b <;> rfl
    have he : verEq [] b ↔ allZero b = true := by
      unfold verEq
      rw [padArr_nil_left]
      simp only [List.length_nil]
      rw [padArr_zero, eq_comm]
      exact eq_replicate_iff_allZero b
    have hl : verLt [] b ↔ allZero b = false := by
      unfold verLt
      rw [padArr_nil_left]
      simp only [List.length_nil]
      rw [padArr_zero]
      exact replicate_lt_iff b
    have hg : ¬ verLt b [] := by
      unfold verLt
      rw [padArr_nil_left]
      simp only [List.length_nil]
      rw [padArr_zero]
      exact not_lt_replicate b
    cases hz : allZero b <;> simp [hr, hz, he, hl, hg]
  | cons x xs ih =>
    intro b
    cases b with
    | nil =>
      have hr : relCmp (x :: xs) [] =
          if allZero (x :: xs) then Ordering.eq else Ordering.gt := rfl
      have he : verEq (x :: xs) [] ↔ allZero (x :: xs) = true := by
        unfold verEq
        rw [padArr_nil_left]
        simp only [List.length_nil]
        rw [padArr_zero]
        exact eq_replicate_iff_allZero (x :: xs)
      have hg : verLt [] (x :: xs) ↔ allZero (x :: xs) = false := by
        unfold verLt
        rw [padArr_nil_left]
        simp only [List.length_nil]
        rw [padArr_zero]
        exact replicate_lt_iff (x :: xs)
      have hl : ¬ verLt (x :: xs) [] := by
        unfold verLt
        rw [padArr_nil_left]
        simp only [List.length_nil]
        rw [padArr_zero]
        exact not_lt_replicate (x :: xs)
      cases hz : allZero (x :: xs) <;> simp [hr, hz, he, hg, hl]
    | cons y ys =>
      have hr : relCmp (x :: xs) (y :: ys) =
          if x < y then Ordering.lt
          else if y < x then Ordering.gt else relCmp xs ys := rfl
      have he : verEq (x :: xs) (y :: ys) ↔ (x = y ∧ verEq xs ys) := by
        unfold verEq
        simp only [List.length_cons]
        rw [padArr_cons, padArr_cons, List.cons.injEq]
      have hl : verLt (x :: xs) (y :: ys) ↔ (x < y ∨ (x = y ∧ verLt xs ys)) := by
        unfold verLt
        simp only [List.length_cons]
        rw [padArr_cons, padArr_cons, nat_cons_lt_cons_iff]
      have hg : verLt (y :: ys) (x :: xs) ↔ (y < x ∨ (y = x ∧ verLt ys xs)) := by
        unfold verLt
        simp only [List.length_cons]
        rw [padArr_cons, padArr_cons, nat_cons_lt_cons_iff]
      rw [hr, he, hl, hg]
      obtain ⟨ihe, ihl, ihg⟩ := ih ys
      by_cases h1 : x < y
      · rw [if_pos h1]
        refine ⟨⟨fun h => Ordering.noConfusion h, fun h => absurd h.1 (by omega)⟩,
          ⟨fun _ => Or.inl h1, fun _ => rfl⟩,
          ⟨fun h => Ordering.noConfusion h, fun h => ?_⟩⟩
        rcases h with h | ⟨h, _⟩ <;> exact absurd h (by omega)
      · rw [if_neg h1]
        by_cases h2 : y < x
        · rw [if_pos h2]
          refine ⟨⟨fun h => Ordering.noConfusion h, fun h => absurd h.1 (by omega)⟩,
            ⟨fun h => Ordering.noConfusion h, fun h => ?_⟩,
            ⟨fun _ => Or.inl h2, fun _ => rfl⟩⟩
          rcases h with h | ⟨h, _⟩ <;> exact absurd h (by omega)
        · rw [if_neg h2]
          have hxy : x = y := by omega
          subst hxy
          refine ⟨?_, ?_, ?_⟩
          · rw [ihe]
            simp
          · rw [ihl]
            refine ⟨fun h => Or.inr ⟨rfl, h⟩, fun h => ?_⟩
            rcases h with h | ⟨_, h⟩
            · omega
            · exact h
          · rw [ihg]
            refine ⟨fun h => Or.inr ⟨rfl, h⟩, fun h => ?_⟩
            rcases h with h | ⟨_, h⟩
            · omega
            · exact h

theorem fetchGo_zero (t maxR : Nat) (outcomes : Nat → AttemptOutcome)
    (attempt : Nat) (lastExc : Option GitHubAPIError) (sleeps : List Nat) :
    fetchGo t maxR outcomes 0 attempt lastExc sleeps =
      ⟨attempt, sleeps,
       Except.error (match lastExc with
         | some e => e
         | none => ⟨"All retry attempts failed"⟩)⟩ := rfl

theorem fetchGo_step_ok (t maxR fuel attempt : Nat)
    (outcomes : Nat → AttemptOutcome) (lastExc : Option GitHubAPIError)
    (sleeps : List Nat) (d : Option ReleaseJson)
    (hok : attemptStep t (outcomes attempt) = Except.ok d) :
    fetchGo t maxR outcomes (fuel + 1) attempt lastExc sleeps =
      ⟨attempt + 1, sleeps, Except.ok d⟩ := by
  simp only [fetchGo]
  rw [hok]

theorem fetchGo_step_err (t maxR fuel attempt : Nat)
    (outcomes : Nat → AttemptOutcome) (lastExc : Option GitHubAPIError)
    (sleeps : List Nat) (e : GitHubAPIError)
    (he : attemptStep t (outcomes attempt) = Except.error e) :
    fetchGo t maxR outcomes (fuel + 1) attempt lastExc sleeps =
      fetchGo t maxR outcomes fuel (attempt + 1) (some e)
        (if attempt < maxR - 1 then sleeps ++ [2 ^ attempt] else sleeps) := by
  simp only [fetchGo]
  rw [he]

theorem fetch_success_general (t maxR : Nat) (outcomes : Nat → AttemptOutcome)
    (i : Nat) (d : Option ReleaseJson) (hi : i < maxR)
    (hok : attemptStep t (outcomes i) = Except.ok d) :
    ∀ fuel a lastExc sleeps, a + fuel = maxR → a ≤ i →
      (∀ j, a ≤ j → j < i → ∃ e, attemptStep t (outcomes j) = Except.error e) →
      fetchGo t maxR outcomes fuel a lastExc sleeps =
        ⟨i + 1, sleeps ++ (List.range' a (i - a)).map (fun j => 2 ^ j),
         Except.ok d⟩ := by
  intro fuel
  induction fuel with
  | zero =>
    intro a lastExc sleeps hinv hai _
    omega
  | succ fuel ihf =>
    intro a lastExc sleeps hinv hai hfail
    by_cases hae : a = i
    · subst hae
      rw [fetchGo_step_ok t maxR fuel a outcomes lastExc sleeps d hok]
      simp [Nat.sub_self]
    · have hlt : a < i := by omega
      obtain ⟨e, he⟩ := hfail a (Nat.le_refl a) hlt
      rw [fetchGo_step_err t maxR fuel a outcomes lastExc sleeps e he]
      have hcond : a < maxR - 1 := by omega
      rw [if_pos hcond]
      rw [ihf (a + 1) (some e) (sleeps ++ [2 ^ a]) (by omega) (by omega)
        (fun j hj1 hj2 => hfail j (by omega) hj2)]
      have hsub : i - a = (i - (a + 1)) + 1 := by omega
      rw [List.append_assoc, hsub, List.range'_succ]
      simp

theorem fetch_exhaust_general (t maxR : Nat) (outcomes : Nat → AttemptOutcome)
    (hAll : ∀ j, j < maxR → ∃ e, attemptStep t (outcomes j) = Except.error e) :
    ∀ fuel a lastExc sleeps, a + fuel = maxR → a < maxR →
      ∃ elast, attemptStep t (outcomes (maxR - 1)) = Except.error elast ∧
        fetchGo t maxR outcomes fuel a lastExc sleeps =
          ⟨maxR, sleeps ++ (List.range' a (maxR - 1 - a)).map (fun j => 2 ^ j),
           Except.error elast⟩ := by
  intro fuel
  induction fuel with
  | zero =>
    intro a lastExc sleeps hinv ha
    omega
  | succ fuel ihf =>
    intro a lastExc sleeps hinv ha
    obtain ⟨e, he⟩ := hAll a ha
    by_cases hlast : a = maxR - 1
    · subst hlast
      have hf0 : fuel = 0 := by omega
      subst hf0
      refine ⟨e, he, ?_⟩
      rw [fetchGo_step_err t maxR 0 (maxR - 1) outcomes lastExc sleeps e he]
      rw [if_neg (by omega)]
      rw [fetchGo_zero]
      have hsucc : maxR - 1 + 1 = maxR := by omega
      rw [hsucc, Nat.sub_self]
      simp
    · have hcond : a < maxR - 1 := by omega
      obtain ⟨elast, hel, heq⟩ := ihf (a + 1) (some e) (sleeps ++ [2 ^ a])
        (by omega) (by omega)
      refine ⟨elast, hel, ?_⟩
      rw [fetchGo_step_err t maxR fuel a outcomes lastExc sleeps e he]
      rw [if_pos hcond, heq]
      have hsub : maxR - 1 - a = (maxR - 1 - (a + 1)) + 1 := by omega
      rw [List.append_assoc, hsub, List.range'_succ]
      simp

theorem compare_versions_status_mem (cur : String) (rel : ReleaseInfo) :
    (compare_versions cur rel).status = UpdateStatus.INVALID_VERSION ∨
    (compare_versions cur rel).status = UpdateStatus.OUTDATED ∨
    (compare_versions cur rel).status = UpdateStatus.AHEAD ∨
    (compare_versions cur rel).status = UpdateStatus.UP_TO_DATE := by
  simp only [compare_versions]
  cases h1 : parseRelease (_normalize_version cur) with
  | error e => exact Or.inl rfl
  | ok cv =>
    cases h2 : parseRelease (_normalize_version rel.tag_name) with
    | error e => exact Or.inl rfl
    | ok lv =>
      dsimp only
      cases h3 : relCmp cv lv
      · exact Or.inr (Or.inl rfl)
      · exact Or.inr (Or.inr (Or.inr rfl))
      · exact Or.inr (Or.inr (Or.inl rfl))

instance verLtDec (a b : List Nat) : Decidable (verLt a b) :=
  inferInstanceAs (Decidable (padArr a b.length < padArr b a.length))

instance verEqDec (a b : List Nat) : Decidable (verEq a b) :=
  inferInstanceAs (Decidable (padArr a b.length = padArr b a.length))

/-- C1: the claim says a first-attempt HTTP 404 stops the fetcher after
exactly 1 attempt with the typed error raised immediately.  The code does
not do this: the `GitHubAPIError` raised for the 404 inside the `try` block
is caught by the generic `except Exception` handler of that same block, so the
fetcher retries — with the default 3 attempts it performs all 3 (sleeping
1s and 2s in between) and finally raises the 404 error wrapped as
`Unexpected error: …`. -/
theorem c1_first_404_retries :
    _fetch_with_retry 10 3 (fun _ => AttemptOutcome.response 404 "Not Found" none) =
      ⟨3, [1, 2],
       Except.error
         ⟨"Unexpected error: Repository not found or no releases available (HTTP 404)"⟩⟩ ∧
    (_fetch_with_retry 10 3
      (fun _ => AttemptOutcome.response 404 "Not Found" none)).attempts ≠ 1 := by
  exact ⟨by decide, by decide⟩

/-- C2 counterexample: for the repository reference `"not a repo"`, which
matches neither accepted pattern, the update check does not terminate in a
`VersionComparison` — the resolution error raised by the constructor
propagates to the caller instead. -/
theorem c2_resolution_cex :
    runUpdateCheck "not a repo" botDataVersion (fun _ => AttemptOutcome.timeout) =
      Except.error ⟨"Invalid GitHub URL format: not a repo"⟩ ∧
    (runUpdateCheck "not a repo" botDataVersion
      (fun _ => AttemptOutcome.timeout)).isOk = false := by
  exact ⟨by decide, by decide⟩

/-- C2 amended: for every repository reference matching neither pattern the
constructor of the checker raises the typed resolution error, which the combined
construct-and-check flow propagates unchanged and independently of any
network behaviour (no fetch, no comparison is performed); once construction
succeeds, `check_for_updates` never raises — every path terminates in a
`VersionComparison` value. -/
theorem c2_resolution_amended (url cur : String)
    (outcomes outcomes2 : Nat → AttemptOutcome) :
    (∀ e, initChecker url 10 3 = Except.error e →
      runUpdateCheck url cur outcomes = Except.error e ∧
      runUpdateCheck url cur outcomes = runUpdateCheck url cur outcomes2) ∧
    (∀ st, initChecker url 10 3 = Except.ok st →
      runUpdateCheck url cur outcomes =
        Except.ok (check_for_updates cur
          (_fetch_with_retry st.timeoutS st.max_retries outcomes).outcome)) := by
  constructor
  · intro e he
    unfold runUpdateCheck
    rw [he]
    exact ⟨rfl, rfl⟩
  · intro st hst
    unfold runUpdateCheck
    rw [hst]

/-- Witness for the amended C2 at the concrete reference `"not a repo"`. -/
theorem c2_resolution_amended_witness :
    runUpdateCheck "not a repo" "0.9" (fun _ => AttemptOutcome.timeout) =
      Except.error ⟨"Invalid GitHub URL format: not a repo"⟩ ∧
    runUpdateCheck "not a repo" "0.9" (fun _ => AttemptOutcome.timeout) =
      runUpdateCheck "not a repo" "0.9"
        (fun _ => AttemptOutcome.response 200 "OK"
          (some ⟨some "v1.0.0", none, none, none, none⟩)) :=
  (c2_resolution_amended "not a repo" "0.9" _ _).1
    ⟨"Invalid GitHub URL format: not a repo"⟩ (by decide)

/-- C3 counterexample: current version `"abc"` against latest `"1.0.0"` does
not produce `INVALID_VERSION`: the normalizer maps `"abc"` to its fallback
`"0.0.0"`, which parses, and the comparison reports `OUTDATED`. -/
theorem c3_abc_cex :
    (compare_versions "abc" ⟨"1.0.0", "", "", "", ""⟩).status =
      UpdateStatus.OUTDATED ∧
    (compare_versions "abc" ⟨"1.0.0", "", "", "", ""⟩).status ≠
      UpdateStatus.INVALID_VERSION ∧
    _normalize_version "abc" = "0.0.0" := by
  exact ⟨by decide, by decide, by decide⟩

/-- C3 amended: whenever semantic-version parsing of either normalized
string fails — for instance for current version `"1..0"` — compare returns
`INVALID_VERSION`, a message containing the error text of the parser, both
normalized fields empty, and `release_info` still attached; no exception
escapes.  (Current `"abc"` instead normalizes to the parsable fallback
`"0.0.0"`, so it yields an ordinary comparison.) -/
theorem c3_invalid_version (cur : String) (rel : ReleaseInfo)
    (h : (parseRelease (_normalize_version cur)).isOk = false ∨
         (parseRelease (_normalize_version rel.tag_name)).isOk = false) :
    (compare_versions cur rel).status = UpdateStatus.INVALID_VERSION ∧
    (∃ err, (parseRelease (_normalize_version cur) = Except.error err ∨
             parseRelease (_normalize_version rel.tag_name) = Except.error err) ∧
      (compare_versions cur rel).message = "❌ Invalid version format: " ++ err) ∧
    (compare_versions cur rel).current_normalized = "" ∧
    (compare_versions cur rel).latest_normalized = "" ∧
    (compare_versions cur rel).release_info = some rel := by
  cases h1 : parseRelease (_normalize_version cur) with
  | error e =>
    simp only [compare_versions, h1]
    refine ⟨?_, ⟨e, Or.inl ?_, ?_⟩, ?_, ?_, ?_⟩ <;> trivial
  | ok cv =>
    have h2 : ∃ e2, parseRelease (_normalize_version rel.tag_name) =
        Except.error e2 := by
      rcases h with h | h
      · rw [h1] at h
        simp [Except.isOk, Except.toBool] at h
      · cases hh : parseRelease (_normalize_version rel.tag_name) with
        | error e2 => exact ⟨e2, rfl⟩
        | ok _ =>
          rw [hh] at h
          simp [Except.isOk, Except.toBool] at h
    obtain ⟨e2, he2⟩ := h2
    simp only [compare_versions, h1, he2]
    refine ⟨?_, ⟨e2, Or.inr ?_, ?_⟩, ?_, ?_, ?_⟩ <;> trivial

/-- Witness for the amended C3 at current `"1..0"` vs latest `"1.0.0"`. -/
theorem c3_invalid_version_witness :
    (compare_versions "1..0" ⟨"1.0.0", "", "", "", ""⟩).status =
      UpdateStatus.INVALID_VERSION ∧
    (compare_versions "1..0" ⟨"1.0.0", "", "", "", ""⟩).message =
      "❌ Invalid version format: Invalid version: \x271..0\x27" ∧
    (compare_versions "1..0" ⟨"1.0.0", "", "", "", ""⟩).release_info =
      some ⟨"1.0.0", "", "", "", ""⟩ :=
  ⟨(c3_invalid_version "1..0" ⟨"1.0.0", "", "", "", ""⟩ (Or.inl (by decide))).1,
   by decide, by decide⟩

/-- C4: every `VersionComparison` the core produces with status
`FETCH_FAILED` or `ERROR` carries no `release_info`: `compare_versions`
never produces those statuses, and the `check_for_updates` branches that do
leave `release_info` unset. -/
theorem c4_error_statuses_no_release_info :
    (∀ cur rel, ((compare_versions cur rel).status = UpdateStatus.FETCH_FAILED ∨
        (compare_versions cur rel).status = UpdateStatus.ERROR) →
      (compare_versions cur rel).release_info = none) ∧
    (∀ cur fetched,
      ((check_for_updates cur fetched).status = UpdateStatus.FETCH_FAILED ∨
        (check_for_updates cur fetched).status = UpdateStatus.ERROR) →
      (check_for_updates cur fetched).release_info = none) := by
  have hcmp : ∀ cur rel,
      ¬ ((compare_versions cur rel).status = UpdateStatus.FETCH_FAILED ∨
         (compare_versions cur rel).status = UpdateStatus.ERROR) := by
    intro cur rel h
    rcases compare_versions_status_mem cur rel with hs | hs | hs | hs <;>
      rcases h with h | h <;> rw [hs] at h <;> cases h
  constructor
  · intro cur rel h
    exact absurd h (hcmp cur rel)
  · intro cur fetched h
    cases fetched with
    | error e => rfl
    | ok od =>
      cases od with
      | none => rfl
      | some d =>
        simp only [check_for_updates, get_latest_release] at h
        exact absurd h (hcmp cur _)

/-- Witness for C4 at a concrete raised fetch error. -/
theorem c4_error_statuses_witness :
    (check_for_updates "0.9" (Except.error ⟨"boom"⟩)).status =
      UpdateStatus.ERROR ∧
    (check_for_updates "0.9" (Except.error ⟨"boom"⟩)).release_info = none :=
  ⟨by decide,
   c4_error_statuses_no_release_info.2 "0.9" (Except.error ⟨"boom"⟩)
     (Or.inr (by decide))⟩

/-- C5: when both normalized version strings parse, the reported status is
exactly the semantic-version order: `OUTDATED` iff current < latest,
`AHEAD` iff current > latest, and `UP_TO_DATE` iff they are equal (as
zero-padded release segments). -/
theorem c5_semver_order (cur : String) (rel : ReleaseInfo) (cv lv : List Nat)
    (hc : parseRelease (_normalize_version cur) = Except.ok cv)
    (hl : parseRelease (_normalize_version rel.tag_name) = Except.ok lv) :
    ((compare_versions cur rel).status = UpdateStatus.OUTDATED ↔ verLt cv lv) ∧
    ((compare_versions cur rel).status = UpdateStatus.AHEAD ↔ verLt lv cv) ∧
    ((compare_versions cur rel).status = UpdateStatus.UP_TO_DATE ↔ verEq cv lv) := by
  obtain ⟨he, hlt, hgt⟩ := relCmp_spec cv lv
  simp only [compare_versions, hc, hl]
  cases ho : relCmp cv lv
  · rw [ho] at he hlt hgt
    exact ⟨⟨fun _ => hlt.mp rfl, fun _ => rfl⟩,
      ⟨fun h => UpdateStatus.noConfusion h,
       fun h => absurd (hgt.mpr h) (by decide)⟩,
      ⟨fun h => UpdateStatus.noConfusion h,
       fun h => absurd (he.mpr h) (by decide)⟩⟩
  · rw [ho] at he hlt hgt
    exact ⟨⟨fun h => UpdateStatus.noConfusion h,
       fun h => absurd (hlt.mpr h) (by decide)⟩,
      ⟨fun h => UpdateStatus.noConfusion h,
       fun h => absurd (hgt.mpr h) (by decide)⟩,
      ⟨fun _ => he.mp rfl, fun _ => rfl⟩⟩
  · rw [ho] at he hlt hgt
    exact ⟨⟨fun h => UpdateStatus.noConfusion h,
       fun h => absurd (hlt.mpr h) (by decide)⟩,
      ⟨fun _ => hgt.mp rfl, fun _ => rfl⟩,
      ⟨fun h => UpdateStatus.noConfusion h,
       fun h => absurd (he.mpr h) (by decide)⟩⟩

/-- Witness for C5 at the three concrete comparisons named by the spec. -/
theorem c5_semver_order_witness :
    (compare_versions "1.0.0" ⟨"v1.0.0", "", "", "", ""⟩).status =
      UpdateStatus.UP_TO_DATE ∧
    (compare_versions "0.9.0" ⟨"1.0.0", "", "", "", ""⟩).status =
      UpdateStatus.OUTDATED ∧
    (compare_versions "2.0.0" ⟨"1.5.0", "", "", "", ""⟩).status =
      UpdateStatus.AHEAD :=
  ⟨(c5_semver_order "1.0.0" ⟨"v1.0.0", "", "", "", ""⟩ [1, 0, 0] [1, 0, 0]
      (by decide) (by decide)).2.2.mpr (by decide),
   (c5_semver_order "0.9.0" ⟨"1.0.0", "", "", "", ""⟩ [0, 9, 0] [1, 0, 0]
      (by decide) (by decide)).1.mpr (by decide),
   (c5_semver_order "2.0.0" ⟨"1.5.0", "", "", "", ""⟩ [2, 0, 0] [1, 5, 0]
      (by decide) (by decide)).2.1.mpr (by decide)⟩

/-- C6: a 200 attempt makes the fetcher return its data immediately (the
attempt count is exactly one more than the index of the succeeding
attempt), and each failed attempt before it — necessarily not the last —
is followed by a sleep of exactly `2 ^ attempt` seconds, zero-indexed, so
the sleeps are 1s, 2s, 4s, …. -/
theorem c6_success_and_backoff (t maxR i : Nat)
    (outcomes : Nat → AttemptOutcome) (d : Option ReleaseJson)
    (hi : i < maxR)
    (hok : attemptStep t (outcomes i) = Except.ok d)
    (hfail : ∀ j, j < i → ∃ e, attemptStep t (outcomes j) = Except.error e) :
    _fetch_with_retry t maxR outcomes =
      ⟨i + 1, (List.range i).map (fun j => 2 ^ j), Except.ok d⟩ := by
  unfold _fetch_with_retry
  rw [fetch_success_general t maxR outcomes i d hi hok maxR 0 none []
    (by omega) (by omega) (fun j _ hj => hfail j hj)]
  rw [List.range_eq_range']
  simp

/-- Witness for C6: two timeouts then a 200 response give exactly 3
attempts, sleeps of 1s and 2s (total 3s), and a successfully built
`ReleaseInfo`. -/
theorem c6_success_and_backoff_witness :
    _fetch_with_retry 10 3
      (fun n => if n < 2 then AttemptOutcome.timeout
        else AttemptOutcome.response 200 "OK"
          (some ⟨some "v1.0.0", none, none, none, none⟩)) =
      ⟨3, [1, 2], Except.ok (some ⟨some "v1.0.0", none, none, none, none⟩)⟩ ∧
    get_latest_release
      (Except.ok (some (⟨some "v1.0.0", none, none, none, none⟩ : ReleaseJson))) =
      Except.ok (some ⟨"v1.0.0", "", "", "", ""⟩) ∧
    ([1, 2] : List Nat).sum = 1 + 2 := by
  have hf : ∀ j, j < 2 → ∃ e, attemptStep 10
      ((fun n => if n < 2 then AttemptOutcome.timeout
        else AttemptOutcome.response 200 "OK"
          (some ⟨some "v1.0.0", none, none, none, none⟩)) j) =
      Except.error e := by
    intro j hj
    refine ⟨⟨"Request timeout after 10s"⟩, ?_⟩
    interval_cases j <;> rfl
  have h := c6_success_and_backoff 10 3 2
    (fun n => if n < 2 then AttemptOutcome.timeout
      else AttemptOutcome.response 200 "OK"
        (some ⟨some "v1.0.0", none, none, none, none⟩))
    (some ⟨some "v1.0.0", none, none, none, none⟩)
    (by omega) (by decide) hf
  rw [h]
  exact ⟨by decide, by decide, by decide⟩

/-- C7: when every attempt fails, the fetcher raises the last captured
typed error (for a positive attempt budget this is the error recorded on
the final attempt); with a zero budget no error was captured and the
generic exhaustion error is raised.  In either case the outcome is an
error — the fetcher never returns normally after exhaustion — and no sleep
follows the last attempt. -/
theorem c7_exhaustion_raises (t maxR : Nat) (outcomes : Nat → AttemptOutcome)
    (hAll : ∀ j, j < maxR → ∃ e, attemptStep t (outcomes j) = Except.error e) :
    (_fetch_with_retry t maxR outcomes).sleeps =
      (List.range (maxR - 1)).map (fun j => 2 ^ j) ∧
    (0 < maxR → ∃ elast, attemptStep t (outcomes (maxR - 1)) = Except.error elast ∧
      (_fetch_with_retry t maxR outcomes).outcome = Except.error elast) ∧
    (maxR = 0 → (_fetch_with_retry t maxR outcomes).outcome =
      Except.error ⟨"All retry attempts failed"⟩) ∧
    (∃ efin, (_fetch_with_retry t maxR outcomes).outcome = Except.error efin) := by
  by_cases h0 : maxR = 0
  · subst h0
    exact ⟨rfl, fun h => absurd h (by omega), fun _ => rfl,
      ⟨⟨"All retry attempts failed"⟩, rfl⟩⟩
  · obtain ⟨elast, hel, heq⟩ := fetch_exhaust_general t maxR outcomes hAll
      maxR 0 none [] (by omega) (by omega)
    unfold _fetch_with_retry
    rw [heq]
    refine ⟨by simp [List.range_eq_range'], fun _ => ⟨elast, hel, rfl⟩,
      fun h => absurd h h0, ⟨elast, rfl⟩⟩

/-- Witness for C7: two attempts that both fail with a transport error
yield a raised network error after one backoff sleep of 1s. -/
theorem c7_exhaustion_raises_witness :
    (_fetch_with_retry 10 2 (fun _ => AttemptOutcome.clientError "conn reset")).sleeps =
      [1] ∧
    (_fetch_with_retry 10 2 (fun _ => AttemptOutcome.clientError "conn reset")).outcome =
      Except.error ⟨"Network error: conn reset"⟩ := by
  have hAll : ∀ j, j < 2 → ∃ e, attemptStep 10
      ((fun _ => AttemptOutcome.clientError "conn reset") j) = Except.error e :=
    fun j _ => ⟨⟨"Network error: conn reset"⟩, rfl⟩
  have h := c7_exhaustion_raises 10 2 _ hAll
  constructor
  · rw [h.1]
    decide
  · obtain ⟨elast, hel, hout⟩ := h.2.1 (by omega)
    have he3 : (Except.error elast :
        Except GitHubAPIError (Option ReleaseJson)) =
        Except.error ⟨"Network error: conn reset"⟩ := hel.symm.trans rfl
    injection he3 with he4
    rw [he4] at hout
    exact hout

/-- C8: the normalizer agrees, on every input string, with the
description in the specification (trim, remove one leading label with optional
separators, strip leading non-digits, fall back to `"0.0.0"` when nothing
remains); in particular the four documented examples hold.  Being a total
function, it never raises. -/
theorem c8_normalizer_refinement :
    (∀ s, _normalize_version s = normalizeSpec s) ∧
    _normalize_version "v1.2.3" = "1.2.3" ∧
    _normalize_version "Version 2.0" = "2.0" ∧
    _normalize_version "" = "0.0.0" ∧
    _normalize_version "garbage" = "0.0.0" :=
  ⟨normalize_agrees, by decide, by decide, by decide, by decide⟩

/-- C9: the resolver maps the full-URL form and the short form to the same
canonical endpoint; on `"github.com:acme/widget"`, which both patterns
match (the short pattern with owner `"github.com:acme"`), the full-URL
pattern tried first wins; every input matching neither pattern raises the
typed resolution error naming the input. -/
theorem c9_resolver_patterns (s : String) :
    _convert_to_api_url "https://github.com/acme/widget" =
      Except.ok "https://api.github.com/repos/acme/widget/releases/latest" ∧
    _convert_to_api_url "acme/widget" =
      Except.ok "https://api.github.com/repos/acme/widget/releases/latest" ∧
    matchShort ("github.com:acme/widget".toList) =
      some ("github.com:acme", "widget") ∧
    _convert_to_api_url "github.com:acme/widget" =
      Except.ok "https://api.github.com/repos/acme/widget/releases/latest" ∧
    (searchFull s.toList = none → matchShort s.toList = none →
      _convert_to_api_url s = Except.error ⟨"Invalid GitHub URL format: " ++ s⟩) := by
  refine ⟨by decide, by decide, by decide, by decide, ?_⟩
  intro h1 h2
  unfold _convert_to_api_url
  rw [h1, h2]

/-- Witness for C9 at the unresolvable reference `"not a repo"`. -/
theorem c9_resolver_patterns_witness :
    _convert_to_api_url "not a repo" =
      Except.error ⟨"Invalid GitHub URL format: not a repo"⟩ :=
  (c9_resolver_patterns "not a repo").2.2.2.2 (by decide) (by decide)

/-- C10: the mapping serialization always lists exactly the six base keys
in order, followed by the four release keys exactly when `release_info` is
present, and `release_notes` holds the body truncated at 500 characters
with an appended ellipsis (the body unchanged otherwise). -/
theorem c10_to_dict_shape (vc : VersionComparison) :
    vc.to_dict.map Prod.fst =
      ["status", "message", "current_version", "latest_version",
       "current_normalized", "latest_normalized"] ++
        (match vc.release_info with
         | some _ => ["release_name", "release_url", "release_date",
             "release_notes"]
         | none => []) ∧
    (∀ r, vc.release_info = some r →
      vc.to_dict.lookup "release_notes" =
        some (if r.body.length > 500 then r.body.take 500 ++ "..." else r.body)) := by
  constructor
  · cases h : vc.release_info <;> simp [VersionComparison.to_dict, h]
  · intro r hr
    simp [VersionComparison.to_dict, hr, List.lookup, ReleaseInfo.truncated_body]

/-- Witness for C10 at a comparison carrying release info with a short
body: all ten keys appear and `release_notes` holds the unmodified body. -/
theorem c10_to_dict_shape_witness :
    (VersionComparison.mk UpdateStatus.UP_TO_DATE "m" "1.0" "v1.0" "1.0" "1.0"
        (some ⟨"v1.0", "R", "u", "d", "hello"⟩)).to_dict.lookup "release_notes" =
      some "hello" ∧
    (VersionComparison.mk UpdateStatus.UP_TO_DATE "m" "1.0" "v1.0" "1.0" "1.0"
        (some ⟨"v1.0", "R", "u", "d", "hello"⟩)).to_dict.map Prod.fst =
      ["status", "message", "current_version", "latest_version",
       "current_normalized", "latest_normalized", "release_name",
       "release_url", "release_date", "release_notes"] := by
  constructor
  · have h := (c10_to_dict_shape
      (VersionComparison.mk UpdateStatus.UP_TO_DATE "m" "1.0" "v1.0" "1.0" "1.0"
        (some ⟨"v1.0", "R", "u", "d", "hello"⟩))).2
      ⟨"v1.0", "R", "u", "d", "hello"⟩ rfl
    rw [h]
    decide
  · decide

end Updater
